import Mathlib

/-!
Verification of the RAG chatbot backend core, shallowly embedded in Lean 4.

Embedded sources:
* `src/services/redis.js` — session store (`getSession`, `updateSession`, `addMessage`);
* `src/services/ragPipeline.js` — pipeline orchestrator (`processQuery`,
  `processStreamingQuery`, `filterRelevantContext`, `prepareContext`,
  `generateFallbackResponse`, `updateConfig`);
* `src/services/embeddings.js` — embedding client input preparation
  (`generateEmbedding`);
* `src/services/llm.js` — streaming generation chunk callbacks
  (`generateStreamingResponse`);
* `src/controllers/chatControllers.js` — socket delivery (`handleSocketMessage`).

Modelling conventions: JavaScript numbers are rationals (`ℚ`), `undefined`
is `Option.none`, a thrown exception is `Except.error`, and external
collaborators (embedding provider, vector index, generative model) are
abstracted as outcome-valued dependencies passed to the orchestrator.
-/

/-! ## JavaScript string helpers

Structural models of the JS string operations the sources use, defined over
the character list of a `String` so that they evaluate by kernel reduction. -/

/-- JS-style `String.prototype.trim`: strip whitespace from both ends. -/
def jsTrim (s : String) : String :=
  ⟨((s.data.dropWhile Char.isWhitespace).reverse.dropWhile Char.isWhitespace).reverse⟩

/-- Split a character list at every occurrence of `sep`, keeping empty pieces,
as JS `String.prototype.split` does with a one-character separator. -/
def splitCharAux (sep : Char) : List Char → List (List Char)
  | [] => [[]]
  | c :: rest =>
      match splitCharAux sep rest with
      | [] => if c = sep then [[], []] else [[c]]
      | w :: ws => if c = sep then [] :: w :: ws else (c :: w) :: ws

/-- JS-style `split` on a single separator character. -/
def jsSplit (sep : Char) (s : String) : List String :=
  (splitCharAux sep s.data).map (fun w => ⟨w⟩)

/-- JS-style `Array.prototype.join` with a separator string. -/
def jsJoin (sep : String) : List String → String
  | [] => ""
  | [w] => w
  | w :: ws => w ++ sep ++ jsJoin sep ws

/-- JS `x || d` on numbers whose left operand may also be `undefined`:
`undefined` and `0` are falsy, every other number selects itself. -/
def jsOrNum (v : Option ℚ) (dflt : ℚ) : ℚ :=
  match v with
  | none => dflt
  | some x => if x = 0 then dflt else x

/-! ## Session store (`redis.js`)

The store is modelled as an association list from keys to a stored session
value plus the TTL it was written with; `set` conses a fresh binding and
`get` takes the most recent one, which matches overwrite semantics of both
the Redis backend and the in-memory `Map` fallback. JSON
serialization/deserialization of plain records is modelled as the identity. -/

/-- A stored chat message (`{role, content, timestamp}`). -/
structure Message where
  role : String
  content : String
  timestamp : String
deriving DecidableEq, Repr

/-- The session value persisted under key `session:<id>`
(`{id, createdAt, lastActivity, messages}`). -/
structure Session where
  id : String
  createdAt : String
  lastActivity : String
  messages : List Message
deriving DecidableEq, Repr

/-- The keyed store: a list of (key, session value, TTL-seconds) bindings,
most recent first. -/
abbrev Store := List (String × Session × Nat)

/-- RedisService.set with a TTL: overwrite the binding for `key`. -/
def storeSet (st : Store) (key : String) (v : Session) (ttl : Nat) : Store :=
  (key, v, ttl) :: st

/-- RedisService.get: the most recent binding for `key`, if any. -/
def storeGet : Store → String → Option (Session × Nat)
  | [], _ => none
  | (k, v, t) :: rest, key => if k = key then some (v, t) else storeGet rest key

/-- RedisService.getSession: read the session under `session:<sid>`; when
present, stamp `lastActivity` with the current time and write the session
back with a fresh TTL (`SESSION_TTL`, default 86400), returning the stamped
session. Returns the read result together with the updated store. -/
def getSession (st : Store) (now : String) (ttl : Nat) (sid : String) :
    Option Session × Store :=
  match storeGet st ("session:" ++ sid) with
  | none => (none, st)
  | some (s, _) =>
      let s2 := { s with lastActivity := now }
      (some s2, storeSet st ("session:" ++ sid) s2 ttl)

/-- RedisService.updateSession: stamp `lastActivity` and write the session
back with a fresh TTL. -/
def updateSession (st : Store) (now : String) (ttl : Nat) (sid : String)
    (sessionData : Session) : Store :=
  storeSet st ("session:" ++ sid) { sessionData with lastActivity := now } ttl

/-- The message-history cap applied by RedisService.addMessage:
`messages.slice(-maxMessages)` once the length exceeds `maxMessages`.
JS `slice(-0)` is `slice(0)` (the whole array), hence the `maxM = 0` branch;
the configured value (`MAX_SESSION_MESSAGES`, default 50) is never 0 because
`parseInt(...) || 50` maps 0 to 50. -/
def capMessages (maxM : Nat) (msgs : List Message) : List Message :=
  if maxM < msgs.length then
    if maxM = 0 then msgs else msgs.drop (msgs.length - maxM)
  else msgs

/-- RedisService.addMessage: read the session (stamping `lastActivity`),
append the message with a fresh timestamp, apply the history cap, and write
the session back. Returns whether a session was found, and the new store. -/
def addMessage (maxM : Nat) (st : Store) (now : String) (ttl : Nat)
    (sid : String) (msg : Message) : Bool × Store :=
  match getSession st now ttl sid with
  | (none, st1) => (false, st1)
  | (some s, st1) =>
      let m2 := { msg with timestamp := now }
      let s2 := { s with messages := capMessages maxM (s.messages ++ [m2]) }
      (true, updateSession st1 now ttl sid s2)

/-- The message list currently stored for `sid`, if a session exists. -/
def sessionMessages (st : Store) (sid : String) : Option (List Message) :=
  (storeGet st ("session:" ++ sid)).map (fun e => e.1.messages)

/-! ### Cap lemmas -/

lemma capMessages_length_le (maxM : Nat) (hm : 0 < maxM) (msgs : List Message) :
    (capMessages maxM msgs).length ≤ maxM := by
  unfold capMessages
  split
  · rename_i h
    rw [if_neg (Nat.pos_iff_ne_zero.mp hm)]
    rw [List.length_drop]
    omega
  · rename_i h
    omega

lemma capMessages_suffix (maxM : Nat) (msgs : List Message) :
    capMessages maxM msgs <:+ msgs := by
  unfold capMessages
  split
  · split
    · exact List.suffix_refl msgs
    · exact List.drop_suffix _ msgs
  · exact List.suffix_refl msgs

lemma capMessages_getLast? (maxM : Nat) (hm : 0 < maxM) (msgs : List Message)
    (m : Message) :
    (capMessages maxM (msgs ++ [m])).getLast? = some m := by
  unfold capMessages
  split
  · rw [if_neg (Nat.pos_iff_ne_zero.mp hm)]
    rw [List.drop_append_eq_append_drop]
    have h1 : (msgs ++ [m]).length - maxM - msgs.length = 0 := by
      simp only [List.length_append, List.length_cons, List.length_nil]
      omega
    rw [h1]
    simp
  · simp

/-- C4: for every session and every `addMessage` call, the stored message
list never exceeds the configured cap (`MAX_SESSION_MESSAGES`, default 50):
after the call the stored list is exactly the previous list plus the new
(freshly timestamped) message with the cap applied, its length is at most
the cap, it is a suffix of the previous list plus the new message (so the
oldest messages are dropped first and retained messages keep insertion
order), and the newest message is always retained. Because the length bound
holds after every single call with no assumption on the previous length,
it holds after every sequence of `addMessage` calls. -/
theorem addMessage_respects_cap (maxM : Nat) (st : Store) (now : String)
    (ttl : Nat) (sid : String) (msg : Message) (msgs : List Message)
    (hm : 0 < maxM) (hs : sessionMessages st sid = some msgs) :
    sessionMessages (addMessage maxM st now ttl sid msg).2 sid =
        some (capMessages maxM (msgs ++ [{ msg with timestamp := now }])) ∧
      (capMessages maxM (msgs ++ [{ msg with timestamp := now }])).length ≤ maxM ∧
      capMessages maxM (msgs ++ [{ msg with timestamp := now }])
        <:+ msgs ++ [{ msg with timestamp := now }] ∧
      (capMessages maxM (msgs ++ [{ msg with timestamp := now }])).getLast? =
        some { msg with timestamp := now } := by
  refine ⟨?_, capMessages_length_le maxM hm _, capMessages_suffix maxM _,
    capMessages_getLast? maxM hm msgs _⟩
  cases hget : storeGet st ("session:" ++ sid) with
  | none =>
      exfalso
      simp only [sessionMessages, hget, Option.map_none'] at hs
      exact Option.noConfusion hs
  | some e =>
      obtain ⟨s, t0⟩ := e
      simp only [sessionMessages, hget, Option.map_some', Option.some_inj] at hs
      simp [addMessage, getSession, hget, updateSession, storeSet, sessionMessages,
        storeGet, hs]

/-- Witness for C4 at a concrete store: with cap 2, appending a third message
to a two-message session keeps the two newest messages, in order. -/
theorem addMessage_respects_cap_witness :
    sessionMessages
        (addMessage 2
          [("session:abc", ⟨"abc", "t0", "t0",
              [⟨"user", "hi", "t0"⟩, ⟨"assistant", "hello", "t1"⟩]⟩, 86400)]
          "t2" 86400 "abc" ⟨"user", "again", ""⟩).2 "abc" =
      some [⟨"assistant", "hello", "t1"⟩, ⟨"user", "again", "t2"⟩] := by
  have h := addMessage_respects_cap 2
    [("session:abc", ⟨"abc", "t0", "t0",
        [⟨"user", "hi", "t0"⟩, ⟨"assistant", "hello", "t1"⟩]⟩, 86400)]
    "t2" 86400 "abc" ⟨"user", "again", ""⟩
    [⟨"user", "hi", "t0"⟩, ⟨"assistant", "hello", "t1"⟩]
    (by decide) (by decide)
  rw [h.1]
  decide

/-- C7: for every existing session, `getSession` returns the stored session
with only `lastActivity` advanced to the current time, leaves the stored
message list unchanged, refreshes the stored TTL, and a second `getSession`
without intervening appends returns the same messages again (only
`lastActivity` advances). -/
theorem getSession_read_refresh (st : Store) (now1 now2 : String) (ttl : Nat)
    (sid : String) (s0 : Session) (ttl0 : Nat)
    (h : storeGet st ("session:" ++ sid) = some (s0, ttl0)) :
    (getSession st now1 ttl sid).1 = some { s0 with lastActivity := now1 } ∧
      sessionMessages (getSession st now1 ttl sid).2 sid = some s0.messages ∧
      storeGet (getSession st now1 ttl sid).2 ("session:" ++ sid) =
        some ({ s0 with lastActivity := now1 }, ttl) ∧
      (getSession (getSession st now1 ttl sid).2 now2 ttl sid).1 =
        some { s0 with lastActivity := now2 } ∧
      sessionMessages (getSession (getSession st now1 ttl sid).2 now2 ttl sid).2 sid =
        some s0.messages := by
  simp [getSession, h, storeSet, sessionMessages, storeGet]

/-- Witness for C7 at a concrete store: two reads leave the message list
stored for the session unchanged. -/
theorem getSession_read_refresh_witness :
    sessionMessages
        (getSession
          (getSession [("session:abc", ⟨"abc", "t0", "t0", [⟨"user", "hi", "t0"⟩]⟩, 7)]
            "t1" 86400 "abc").2
          "t2" 86400 "abc").2 "abc" =
      some [⟨"user", "hi", "t0"⟩] := by
  have h := getSession_read_refresh
    [("session:abc", ⟨"abc", "t0", "t0", [⟨"user", "hi", "t0"⟩]⟩, 7)]
    "t1" "t2" 86400 "abc" ⟨"abc", "t0", "t0", [⟨"user", "hi", "t0"⟩]⟩ 7 (by decide)
  exact h.2.2.2.2

/-! ## Pipeline data model (`ragPipeline.js`, `vectordb.js`) -/

/-- Free-form chunk metadata; absent fields are JS `undefined`. -/
structure Metadata where
  title : Option String := none
  source : Option String := none
  url : Option String := none
  published : Option String := none
deriving DecidableEq, Repr

/-- JS truthiness of a possibly-absent string: `undefined` and `""` are falsy. -/
def strTruthy : Option String → Bool
  | none => false
  | some s => !(s == "")

/-- The result shape of `vectorDbService.searchSimilar`: index-aligned lists
of documents, metadata, distances and ids. Entries that may be `undefined`
or `null` in JS are `Option`s, and the lists need not all have equal length. -/
structure SearchResults where
  documents : List String
  distances : List (Option ℚ)
  metadatas : List (Option Metadata)
  ids : List String
deriving DecidableEq, Repr

/-- A filtered retrieval candidate as built by `filterRelevantContext`. -/
structure Candidate where
  content : String
  metadata : Metadata
  similarity : ℚ
  id : String
deriving DecidableEq, Repr

/-- Descending-similarity ordering on candidates, the comparator
`(a, b) => b.similarity - a.similarity` of the source's sort call. -/
abbrev simGE (a b : Candidate) : Prop := b.similarity ≤ a.similarity

instance : DecidableRel simGE := fun a b =>
  inferInstanceAs (Decidable (b.similarity ≤ a.similarity))

instance : IsTotal Candidate simGE := ⟨fun a b => le_total b.similarity a.similarity⟩

instance : IsTrans Candidate simGE := ⟨fun _ _ _ hab hbc => le_trans hbc hab⟩

/-- The candidate assembled for index `i` in `filterRelevantContext`:
`distance = searchResults.distances[i] || 0` (missing or zero becomes 0),
`similarity = 1 - distance`, `metadata = searchResults.metadatas[i] || {}`. -/
def candidateAt (sr : SearchResults) (i : Nat) : Candidate :=
  { content := sr.documents.getD i ""
    metadata := (sr.metadatas.getD i none).getD {}
    similarity := 1 - (sr.distances.getD i none).getD 0
    id := sr.ids.getD i "" }

/-- RAGPipelineService.filterRelevantContext: keep the candidates whose
derived similarity is at least the threshold (scanning documents in index
order) and sort the kept candidates by descending similarity. -/
def filterRelevantContext (sr : SearchResults) (threshold : ℚ) : List Candidate :=
  ((List.range sr.documents.length).filterMap (fun i =>
      if threshold ≤ (candidateAt sr i).similarity then some (candidateAt sr i)
      else none)).insertionSort simGE

/-- Membership in the filtered context comes exactly from an in-range index
whose derived similarity clears the threshold. -/
lemma mem_filterRelevantContext {sr : SearchResults} {t : ℚ} {c : Candidate} :
    c ∈ filterRelevantContext sr t ↔
      ∃ i, i ∈ List.range sr.documents.length ∧
        t ≤ (candidateAt sr i).similarity ∧ c = candidateAt sr i := by
  unfold filterRelevantContext
  rw [List.mem_insertionSort, List.mem_filterMap]
  constructor
  · rintro ⟨i, hi, hf⟩
    by_cases h : t ≤ (candidateAt sr i).similarity
    · rw [if_pos h] at hf
      exact ⟨i, hi, h, (Option.some_inj.mp hf).symm⟩
    · rw [if_neg h] at hf
      exact absurd hf (by simp)
  · rintro ⟨i, hi, h, rfl⟩
    exact ⟨i, hi, by rw [if_pos h]⟩

/-- C2: for every search result set and every threshold `t`,
`filterRelevantContext` returns only candidates whose derived similarity
(1 minus the reported distance, a missing distance counting as 0) is at
least `t`, and the returned list is sorted in descending order of
similarity. -/
theorem filterRelevantContext_threshold_sorted (sr : SearchResults) (t : ℚ) :
    (∀ c ∈ filterRelevantContext sr t, t ≤ c.similarity) ∧
      List.Sorted simGE (filterRelevantContext sr t) := by
  constructor
  · intro c hc
    obtain ⟨i, _, h, rfl⟩ := mem_filterRelevantContext.mp hc
    exact h
  · exact List.sorted_insertionSort simGE _

/-- Witness for C2: on a concrete two-document result set with threshold
zero, the returned candidates all clear the threshold and the list is
sorted descending. -/
theorem filterRelevantContext_threshold_sorted_witness :
    (0 : ℚ) ≤ (candidateAt ⟨["a"], [none], [none], ["ida"]⟩ 0).similarity ∧
      List.Sorted simGE (filterRelevantContext ⟨["a"], [none], [none], ["ida"]⟩ 0) := by
  have h := filterRelevantContext_threshold_sorted ⟨["a"], [none], [none], ["ida"]⟩ 0
  refine ⟨h.1 _ ?_, h.2⟩
  rw [mem_filterRelevantContext]
  refine ⟨0, ?_, ?_, rfl⟩
  · simp
  · norm_num [candidateAt]

/-- When every distance present in the results is nonnegative, every derived
distance (missing entries defaulting to 0) is nonnegative. -/
lemma derived_distance_nonneg {sr : SearchResults}
    (hpos : ∀ d ∈ sr.distances, ∀ x, d = some x → 0 ≤ x) (j : Nat) :
    0 ≤ ((sr.distances.getD j none).getD 0 : ℚ) := by
  rcases hj : sr.distances.getD j none with _ | x
  · simp
  · rw [List.getD_eq_getElem?_getD] at hj
    rcases hg : sr.distances[j]? with _ | y
    · rw [hg] at hj
      simp at hj
    · rw [hg] at hj
      simp only [Option.getD_some] at hj
      subst hj
      simpa using hpos _ (List.getElem?_mem hg) x rfl

/-- C9: a candidate whose reported distance is missing or exactly 0 gets
derived similarity 1, hence passes every threshold `t ≤ 1`, and — as long as
all reported distances are nonnegative — its similarity is greatest among
all returned candidates, so it sorts ahead of (or ties with) all of them. -/
theorem zero_distance_top_rank (sr : SearchResults) (t : ℚ) (i : Nat)
    (hi : i < sr.documents.length)
    (hd : sr.distances.getD i none = none ∨ sr.distances.getD i none = some 0)
    (ht : t ≤ 1)
    (hpos : ∀ d ∈ sr.distances, ∀ x, d = some x → 0 ≤ x) :
    (candidateAt sr i).similarity = 1 ∧
      candidateAt sr i ∈ filterRelevantContext sr t ∧
      ∀ c ∈ filterRelevantContext sr t, c.similarity ≤ (candidateAt sr i).similarity := by
  have hd0 : ((sr.distances.getD i none).getD 0 : ℚ) = 0 := by
    rcases hd with h | h <;> rw [h] <;> simp
  have hsim : (candidateAt sr i).similarity = 1 := by
    simp only [candidateAt]
    rw [hd0, sub_zero]
  refine ⟨hsim, ?_, ?_⟩
  · exact mem_filterRelevantContext.mpr
      ⟨i, List.mem_range.mpr hi, by rw [hsim]; exact ht, rfl⟩
  · intro c hc
    obtain ⟨j, _, _, rfl⟩ := mem_filterRelevantContext.mp hc
    rw [hsim]
    simpa [candidateAt] using sub_le_self (1 : ℚ) (derived_distance_nonneg hpos j)

/-- Witness for C9: in a concrete result set whose second distance is
exactly 0, the second candidate has derived similarity 1. -/
theorem zero_distance_top_rank_witness :
    (candidateAt ⟨["a", "b"], [none, some 0], [none, none], ["ida", "idb"]⟩ 1).similarity
      = 1 := by
  refine (zero_distance_top_rank ⟨["a", "b"], [none, some 0], [none, none],
    ["ida", "idb"]⟩ 1 1 (by norm_num) (Or.inr rfl) le_rfl ?_).1
  intro d hd x hx
  simp only [List.mem_cons, List.not_mem_nil, or_false] at hd
  rcases hd with rfl | rfl
  · exact absurd hx (by simp)
  · rw [Option.some_inj] at hx
    rw [← hx]

/-! ## Pipeline configuration (`ragPipeline.js` constructor and `updateConfig`) -/

/-- The instance configuration of RAGPipelineService: `topK`,
`similarityThreshold`, `maxContextLength`. -/
structure RAGConfig where
  topK : ℚ
  similarityThreshold : ℚ
  maxContextLength : ℚ
deriving DecidableEq, Repr

/-- Constructor values with the environment unset:
`config.rag.vectorSearchTopK || 3 = 3`, hard-coded `0.1`,
`config.rag.maxContextChunks || 5 = 5`. -/
def defaultRAGConfig : RAGConfig :=
  { topK := 3, similarityThreshold := 1/10, maxContextLength := 5 }

/-- The `newConfig` argument of `updateConfig`; a field that is JS
`undefined` is `none`. -/
structure ConfigUpdate where
  topK : Option ℚ := none
  similarityThreshold : Option ℚ := none
  maxContextLength : Option ℚ := none
deriving DecidableEq, Repr

/-- RAGPipelineService.updateConfig: clamp each defined field into its range
(`topK` to [1,20], `similarityThreshold` to [0,1], `maxContextLength` to
[1,10]) and leave undefined fields unchanged. -/
def updateConfig (c : RAGConfig) (u : ConfigUpdate) : RAGConfig where
  topK :=
    match u.topK with
    | none => c.topK
    | some v => max 1 (min 20 v)
  similarityThreshold :=
    match u.similarityThreshold with
    | none => c.similarityThreshold
    | some v => max 0 (min 1 v)
  maxContextLength :=
    match u.maxContextLength with
    | none => c.maxContextLength
    | some v => max 1 (min 10 v)

/-- The configuration invariant maintained by `updateConfig`. -/
def configInvariant (c : RAGConfig) : Prop :=
  1 ≤ c.topK ∧ c.topK ≤ 20 ∧
    0 ≤ c.similarityThreshold ∧ c.similarityThreshold ≤ 1 ∧
    1 ≤ c.maxContextLength ∧ c.maxContextLength ≤ 10

lemma clamp_bounds (lo hi v : ℚ) (hlohi : lo ≤ hi) :
    lo ≤ max lo (min hi v) ∧ max lo (min hi v) ≤ hi :=
  ⟨le_max_left _ _, max_le hlohi (min_le_left _ _)⟩

/-- C10: after every `updateConfig` call from a state satisfying the
configuration invariant, the invariant still holds, and fields whose new
value is undefined are left unchanged. -/
theorem updateConfig_preserves_invariant (c : RAGConfig) (u : ConfigUpdate)
    (h : configInvariant c) :
    configInvariant (updateConfig c u) ∧
      (u.topK = none → (updateConfig c u).topK = c.topK) ∧
      (u.similarityThreshold = none →
        (updateConfig c u).similarityThreshold = c.similarityThreshold) ∧
      (u.maxContextLength = none →
        (updateConfig c u).maxContextLength = c.maxContextLength) := by
  obtain ⟨h1, h2, h3, h4, h5, h6⟩ := h
  have htk : 1 ≤ (updateConfig c u).topK ∧ (updateConfig c u).topK ≤ 20 := by
    cases hu : u.topK with
    | none => exact ⟨by simp [updateConfig, hu, h1], by simp [updateConfig, hu, h2]⟩
    | some v =>
        simpa [updateConfig, hu] using clamp_bounds 1 20 v (by norm_num)
  have hst : 0 ≤ (updateConfig c u).similarityThreshold ∧
      (updateConfig c u).similarityThreshold ≤ 1 := by
    cases hu : u.similarityThreshold with
    | none => exact ⟨by simp [updateConfig, hu, h3], by simp [updateConfig, hu, h4]⟩
    | some v =>
        simpa [updateConfig, hu] using clamp_bounds 0 1 v (by norm_num)
  have hmc : 1 ≤ (updateConfig c u).maxContextLength ∧
      (updateConfig c u).maxContextLength ≤ 10 := by
    cases hu : u.maxContextLength with
    | none => exact ⟨by simp [updateConfig, hu, h5], by simp [updateConfig, hu, h6]⟩
    | some v =>
        simpa [updateConfig, hu] using clamp_bounds 1 10 v (by norm_num)
  refine ⟨⟨htk.1, htk.2, hst.1, hst.2, hmc.1, hmc.2⟩, ?_, ?_, ?_⟩ <;>
    intro hu <;> simp [updateConfig, hu]

/-- Witness for C10: updating the default configuration with an
out-of-range `topK` and `similarityThreshold` still satisfies the
invariant. -/
theorem updateConfig_preserves_invariant_witness :
    configInvariant (updateConfig defaultRAGConfig
      { topK := some 100, similarityThreshold := some 5, maxContextLength := none }) := by
  refine (updateConfig_preserves_invariant defaultRAGConfig
    { topK := some 100, similarityThreshold := some 5, maxContextLength := none } ?_).1
  refine ⟨?_, ?_, ?_, ?_, ?_, ?_⟩ <;> norm_num [defaultRAGConfig]

/-! ## Context preparation and query orchestration (`ragPipeline.js`) -/

/-- A generation result (`{text, ...}`); only the text matters here. -/
structure GenText where
  text : String
deriving DecidableEq, Repr

/-- A prepared context entry as built by `prepareContext`. -/
structure ContextItem where
  content : String
  similarity : ℚ
  metadata : Metadata
deriving DecidableEq, Repr

/-- The context string built by `prepareContext` for one candidate: the
content, plus an inline source block when the metadata has a truthy title,
source or url. Note the source appends `title`, `source` and `published`
entries (not `url`) even though `url` alone triggers the block. -/
def contextContent (content : String) (md : Metadata) : String :=
  if strTruthy md.title || strTruthy md.source || strTruthy md.url then
    content ++ "\n\n[" ++
      jsJoin " | "
        ((if strTruthy md.title then ["Title: " ++ md.title.getD ""] else []) ++
          (if strTruthy md.source then ["Source: " ++ md.source.getD ""] else []) ++
          (if strTruthy md.published then ["Published: " ++ md.published.getD ""] else [])) ++
      "]"
  else content

/-- The loop of RAGPipelineService.prepareContext: take candidates in order,
stopping as soon as the count of items already taken reaches `maxLength`
(a JS number). The accumulated `totalLength` of the source is tracked but
never used for limiting, so it is omitted. -/
def prepareContextAux (maxLength : ℚ) : List Candidate → Nat → List ContextItem
  | [], _ => []
  | item :: rest, count =>
      if maxLength ≤ (count : ℚ) then []
      else
        { content := contextContent item.content item.metadata
          similarity := item.similarity
          metadata := item.metadata } :: prepareContextAux maxLength rest (count + 1)

/-- RAGPipelineService.prepareContext. -/
def prepareContext (relevant : List Candidate) (maxLength : ℚ) : List ContextItem :=
  prepareContextAux maxLength relevant 0

/-- The hard-coded apology returned by `generateFallbackResponse` when its
own generation call throws. -/
def apologyNoInfo : String :=
  "I apologize, but I don\x27t have enough information in my knowledge base to answer your question. Could you try rephrasing your question or asking about a different topic?"

/-- The hard-coded apology of the dead `.catch` in `processQuery`; the
fallback generation never rejects, so this value is unreachable. -/
def techDifficulties : String :=
  "I apologize, but I\x27m having technical difficulties processing your request right now."

/-- RAGPipelineService.generateFallbackResponse: return the fallback
generation result, or — when that call throws — the hard-coded apology.
This function never throws. -/
def generateFallbackResponse (fallbackGen : Except String GenText) : GenText :=
  match fallbackGen with
  | .ok r => r
  | .error _ => { text := apologyNoInfo }

/-- The per-call `options` object of `processQuery` /
`processStreamingQuery`; an absent field is `none`. -/
structure RAGOptions where
  topK : Option ℚ := none
  similarityThreshold : Option ℚ := none
  maxContextLength : Option ℚ := none
deriving DecidableEq, Repr

/-- Outcomes of the external collaborators for one `processQuery` run:
whether `isReady()` holds, the embedding stage outcome, the vector search
results as a function of the requested `topK` (the source's `searchSimilar`
catches internally and always resolves), the RAG generation outcome as a
function of the prepared context, and the fallback generation outcome. -/
structure PipelineDeps where
  ready : Bool
  embed : Except String Nat
  search : ℚ → SearchResults
  llmGen : List ContextItem → Except String GenText
  fallbackGen : Except String GenText

/-- The client-facing result of `processQuery`: `success: true` with answer
text and context, or `success: false` with the error message and the
best-effort fallback answer. -/
inductive QueryResult where
  | ok (response : String) (context : List ContextItem)
  | fail (error : String) (fallbackResponse : GenText)
deriving DecidableEq, Repr

/-- The message of the not-ready guard in `processQuery`. -/
def notReadyError : String :=
  "RAG pipeline not ready - please check service availability"

/-- The search results for the resolved `topK` (`options.topK || this.topK`). -/
def resolvedSearch (deps : PipelineDeps) (opts : RAGOptions) (inst : RAGConfig) :
    SearchResults :=
  deps.search (jsOrNum opts.topK inst.topK)

/-- The filtered context for the resolved similarity threshold
(`options.similarityThreshold || this.similarityThreshold`). -/
def resolvedContext (deps : PipelineDeps) (opts : RAGOptions) (inst : RAGConfig) :
    List Candidate :=
  filterRelevantContext (resolvedSearch deps opts inst)
    (jsOrNum opts.similarityThreshold inst.similarityThreshold)

/-- The prepared context for the resolved maximum context length
(`options.maxContextLength || this.maxContextLength`). -/
def resolvedContextData (deps : PipelineDeps) (opts : RAGOptions) (inst : RAGConfig) :
    List ContextItem :=
  prepareContext (resolvedContext deps opts inst)
    (jsOrNum opts.maxContextLength inst.maxContextLength)

/-- RAGPipelineService.processQuery: embed, search, filter, prepare,
generate; an empty filtered context routes to the fallback generation and
still succeeds; any thrown stage error is caught and returned as a failure
result carrying the best-effort fallback answer (the additional `.catch`
returning `techDifficulties` is dead code because
`generateFallbackResponse` never rejects). -/
def processQuery (deps : PipelineDeps) (opts : RAGOptions) (inst : RAGConfig) :
    QueryResult :=
  if deps.ready = false then
    .fail notReadyError (generateFallbackResponse deps.fallbackGen)
  else
    match deps.embed with
    | .error e => .fail e (generateFallbackResponse deps.fallbackGen)
    | .ok _ =>
        if (resolvedContext deps opts inst).length = 0 then
          .ok (generateFallbackResponse deps.fallbackGen).text []
        else
          match deps.llmGen (resolvedContextData deps opts inst) with
          | .error e => .fail e (generateFallbackResponse deps.fallbackGen)
          | .ok r => .ok r.text (resolvedContextData deps opts inst)

/-- C3: every failing `processQuery` run is caught and returns the
best-effort fallback answer, never the raw error as the answer: every
`fail` result carries exactly `generateFallbackResponse` of the fallback
generation outcome (which is the hard-coded apology when that generation
also throws), and each throwing stage — the readiness guard, the embedding
stage, the generation stage — produces such a `fail` result rather than
propagating. -/
theorem processQuery_error_handling (deps : PipelineDeps) (opts : RAGOptions)
    (inst : RAGConfig) :
    (∀ e fb, processQuery deps opts inst = .fail e fb →
        fb = generateFallbackResponse deps.fallbackGen ∧
          ∀ msg, deps.fallbackGen = .error msg → fb.text = apologyNoInfo) ∧
      (deps.ready = false →
        processQuery deps opts inst =
          .fail notReadyError (generateFallbackResponse deps.fallbackGen)) ∧
      (∀ em, deps.ready = true → deps.embed = .error em →
        processQuery deps opts inst =
          .fail em (generateFallbackResponse deps.fallbackGen)) ∧
      (∀ d el, deps.ready = true → deps.embed = .ok d →
        (resolvedContext deps opts inst).length ≠ 0 →
        deps.llmGen (resolvedContextData deps opts inst) = .error el →
        processQuery deps opts inst =
          .fail el (generateFallbackResponse deps.fallbackGen)) := by
  have hfb : ∀ msg, deps.fallbackGen = .error msg →
      (generateFallbackResponse deps.fallbackGen).text = apologyNoInfo := by
    intro msg hm
    rw [hm]
    rfl
  refine ⟨?_, ?_, ?_, ?_⟩
  · intro e fb hfail
    unfold processQuery at hfail
    split at hfail
    · cases hfail
      exact ⟨rfl, hfb⟩
    · split at hfail
      · cases hfail
        exact ⟨rfl, hfb⟩
      · split at hfail
        · exact absurd hfail (by simp)
        · split at hfail
          · cases hfail
            exact ⟨rfl, hfb⟩
          · exact absurd hfail (by simp)
  · intro hr
    unfold processQuery
    rw [if_pos hr]
  · intro em hr hemb
    unfold processQuery
    rw [if_neg (by simp [hr]), hemb]
  · intro d el hr hemb hlen hllm
    unfold processQuery
    rw [if_neg (by simp [hr]), hemb]
    rw [if_neg hlen, hllm]

/-- Witness for C3: with the embedding stage and the fallback generation
both throwing, `processQuery` returns a failure carrying the hard-coded
apology. -/
theorem processQuery_error_handling_witness :
    processQuery
        { ready := true, embed := .error "boom", search := fun _ => ⟨[], [], [], []⟩,
          llmGen := fun _ => .error "no llm", fallbackGen := .error "no fallback" }
        {} defaultRAGConfig =
      .fail "boom" ⟨apologyNoInfo⟩ := by
  have h := processQuery_error_handling
    { ready := true, embed := .error "boom", search := fun _ => ⟨[], [], [], []⟩,
      llmGen := fun _ => .error "no llm", fallbackGen := .error "no fallback" }
    {} defaultRAGConfig
  exact h.2.2.1 "boom" rfl rfl

/-- C6: whenever relevance filtering yields an empty context (with the
readiness guard passing and the embedding stage succeeding), `processQuery`
returns a success result with an empty context list and the
fallback-generation answer — not an error result. -/
theorem processQuery_empty_context_success (deps : PipelineDeps)
    (opts : RAGOptions) (inst : RAGConfig) (d : Nat)
    (hready : deps.ready = true) (hembed : deps.embed = .ok d)
    (hempty : resolvedContext deps opts inst = []) :
    processQuery deps opts inst =
      .ok (generateFallbackResponse deps.fallbackGen).text [] := by
  unfold processQuery
  rw [if_neg (by simp [hready]), hembed, if_pos (by rw [hempty]; rfl)]

/-- Witness for C6: with no stored documents the pipeline succeeds with an
empty context and the fallback answer. -/
theorem processQuery_empty_context_success_witness :
    processQuery
        { ready := true, embed := .ok 768, search := fun _ => ⟨[], [], [], []⟩,
          llmGen := fun _ => .error "no llm", fallbackGen := .ok ⟨"fallback answer"⟩ }
        {} defaultRAGConfig =
      .ok "fallback answer" [] := by
  have h := processQuery_empty_context_success
    { ready := true, embed := .ok 768, search := fun _ => ⟨[], [], [], []⟩,
      llmGen := fun _ => .error "no llm", fallbackGen := .ok ⟨"fallback answer"⟩ }
    {} defaultRAGConfig 768 rfl rfl rfl
  exact h

/-! ## Streaming (`llm.js` generateStreamingResponse, `ragPipeline.js`
processStreamingQuery, `chatControllers.js` handleSocketMessage)

The streaming paths are modelled by the sequence of `onChunk` callback
payloads they produce, and the socket controller by the sequence of events
it emits. -/

/-- One `onChunk` payload
(`{chunk, fullText, chunkIndex, isComplete, error?}`); the `error` field is
absent (falsy) except on the error chunk. -/
structure ChunkData where
  chunk : String
  fullText : String
  chunkIndex : Nat
  isComplete : Bool
  error : Bool
deriving DecidableEq, Repr

/-- The error message streamed by the catch block of
`processStreamingQuery`. -/
def streamErrorText : String :=
  "I apologize, but I encountered an error processing your request."

/-- The single error chunk emitted by the catch block of
`processStreamingQuery`: index 0, complete, flagged as error. -/
def errorChunkData : ChunkData :=
  { chunk := streamErrorText, fullText := streamErrorText, chunkIndex := 0,
    isComplete := true, error := true }

/-- The per-chunk callbacks of `LLMService.generateStreamingResponse`: for
each raw stream fragment, skip it when empty (JS truthiness of
`chunkText`), otherwise increment `chunkCount`, extend `fullText`, and
invoke the callback with `isComplete: false`. -/
def llmChunkEvents : List String → Nat → String → List ChunkData
  | [], _, _ => []
  | c :: rest, count, acc =>
      if c = "" then llmChunkEvents rest count acc
      else
        { chunk := c, fullText := acc ++ c, chunkIndex := count + 1,
            isComplete := false, error := false } ::
          llmChunkEvents rest (count + 1) (acc ++ c)

/-- The accumulated `fullText` after consuming the whole raw stream. -/
def llmFullText : List String → String → String
  | [], acc => acc
  | c :: rest, acc => llmFullText rest (acc ++ c)

/-- The final `chunkCount`: the number of nonempty raw fragments. -/
def countNonemptyChunks (raw : List String) : Nat :=
  (raw.filter (fun c => !(c == ""))).length

/-- The final completion callback of a successful
`generateStreamingResponse` run: empty chunk, the full accumulated text,
and the final `chunkCount` as its index (repeating the index of the last
content chunk when there is one). -/
def llmFinalChunk (raw : List String) : ChunkData :=
  { chunk := "", fullText := llmFullText raw "", chunkIndex := countNonemptyChunks raw,
    isComplete := true, error := false }

/-- The fallback text streamed word-by-word when no relevant context is
found. -/
def fallbackStreamText : String :=
  "I don\x27t have enough relevant information to answer your question."

/-- The `words` array: `fallbackText.split(" ")`. -/
def fallbackWords : List String := jsSplit ' ' fallbackStreamText

/-- The per-word `onChunk` payloads of the empty-context fallback path:
chunk `i` carries word `i` plus a trailing space and cumulative text
`words.slice(0, i+1).join(" ")`. -/
def fallbackWordChunks : List ChunkData :=
  fallbackWords.enum.map (fun p =>
    { chunk := p.2 ++ " ", fullText := jsJoin " " (fallbackWords.take (p.1 + 1)),
      chunkIndex := p.1, isComplete := false, error := false })

/-- The completion payload of the fallback path: index `words.length`. -/
def fallbackFinalChunk : ChunkData :=
  { chunk := "", fullText := fallbackStreamText, chunkIndex := fallbackWords.length,
    isComplete := true, error := false }

/-- All `onChunk` payloads of the empty-context fallback path. -/
def fallbackStreamChunks : List ChunkData :=
  fallbackWordChunks ++ [fallbackFinalChunk]

/-- Outcomes of the external collaborators for one `processStreamingQuery`
run; the raw LLM stream is a list of text fragments as a function of the
prepared context, plus whether the stream throws after yielding them. -/
structure StreamDeps where
  ready : Bool
  embed : Except String Nat
  search : ℚ → SearchResults
  llmChunks : List ContextItem → List String
  llmFails : List ContextItem → Bool

/-- The filtered context of the streaming path for the resolved options. -/
def streamResolvedContext (deps : StreamDeps) (opts : RAGOptions)
    (inst : RAGConfig) : List Candidate :=
  filterRelevantContext (deps.search (jsOrNum opts.topK inst.topK))
    (jsOrNum opts.similarityThreshold inst.similarityThreshold)

/-- The prepared context of the streaming path for the resolved options. -/
def streamResolvedContextData (deps : StreamDeps) (opts : RAGOptions)
    (inst : RAGConfig) : List ContextItem :=
  prepareContext (streamResolvedContext deps opts inst)
    (jsOrNum opts.maxContextLength inst.maxContextLength)

/-- RAGPipelineService.processStreamingQuery, as the sequence of `onChunk`
payloads it produces: a readiness or embedding failure is caught and emits
the single error chunk; an empty filtered context streams the fallback text
word-by-word plus a completion chunk; otherwise the LLM stream's nonempty
fragments are relayed with indices 1,2,…, followed by the completion chunk
on success or by the caught error chunk when the stream throws. -/
def processStreamingQueryChunks (deps : StreamDeps) (opts : RAGOptions)
    (inst : RAGConfig) : List ChunkData :=
  if deps.ready = false then [errorChunkData]
  else
    match deps.embed with
    | .error _ => [errorChunkData]
    | .ok _ =>
        if (streamResolvedContext deps opts inst).length = 0 then
          fallbackStreamChunks
        else
          if deps.llmFails (streamResolvedContextData deps opts inst) then
            llmChunkEvents (deps.llmChunks (streamResolvedContextData deps opts inst)) 0 "" ++
              [errorChunkData]
          else
            llmChunkEvents (deps.llmChunks (streamResolvedContextData deps opts inst)) 0 "" ++
              [llmFinalChunk (deps.llmChunks (streamResolvedContextData deps opts inst))]

/-- The socket events emitted by `handleSocketMessage`. -/
inductive SocketEvent where
  | typing (flag : Bool)
  | message_chunk (sessionId : String) (index : Nat) (isComplete : Bool) (error : Bool)
  | message_complete (sessionId : String)
  | error_event (message : String)
deriving DecidableEq, Repr

/-- The controller's fixed RAG options
(`topK: 3, similarityThreshold: 0.1, maxContextLength: 3`). -/
def controllerOptions : RAGOptions :=
  { topK := some 3, similarityThreshold := some (1/10), maxContextLength := some 3 }

/-- ChatControllers.handleSocketMessage, as the sequence of socket events it
emits for one streaming query: `typing true`, then — when the pipeline is
not ready — `typing false` and a bare `message_complete`; otherwise one
`message_chunk` per `onChunk` payload followed by `typing false`. -/
def handleSocketMessageEvents (deps : StreamDeps) (sessionId : String) :
    List SocketEvent :=
  SocketEvent.typing true ::
    (if deps.ready = false then
      [SocketEvent.typing false, SocketEvent.message_complete sessionId]
    else
      ((processStreamingQueryChunks deps controllerOptions defaultRAGConfig).map
          (fun c => SocketEvent.message_chunk sessionId c.chunkIndex c.isComplete c.error)) ++
        [SocketEvent.typing false])

/-- Whether an event is part of the message stream (everything except the
typing indicator). -/
def isMessageEvent : SocketEvent → Bool
  | .typing _ => false
  | _ => true

/-- Whether an event is terminal: a completion event, an error event, or a
chunk carrying `isComplete: true`. -/
def isTerminalEvent : SocketEvent → Bool
  | .typing _ => false
  | .message_chunk _ _ c _ => c
  | .message_complete _ => true
  | .error_event _ => true

/-- The index carried by a chunk event. -/
def chunkEventIndex : SocketEvent → Nat
  | .message_chunk _ i _ _ => i
  | _ => 0

lemma llmChunkEvents_not_complete (raw : List String) :
    ∀ n acc e, e ∈ llmChunkEvents raw n acc → e.isComplete = false := by
  induction raw with
  | nil =>
      intro n acc e he
      simp [llmChunkEvents] at he
  | cons c rest ih =>
      intro n acc e he
      by_cases hc : c = ""
      · rw [llmChunkEvents, if_pos hc] at he
        exact ih n acc e he
      · rw [llmChunkEvents, if_neg hc] at he
        rcases List.mem_cons.mp he with rfl | he2
        · rfl
        · exact ih (n + 1) (acc ++ c) e he2

lemma llmChunkEvents_index_gt (raw : List String) :
    ∀ n acc e, e ∈ llmChunkEvents raw n acc → n < e.chunkIndex := by
  induction raw with
  | nil =>
      intro n acc e he
      simp [llmChunkEvents] at he
  | cons c rest ih =>
      intro n acc e he
      by_cases hc : c = ""
      · rw [llmChunkEvents, if_pos hc] at he
        exact ih n acc e he
      · rw [llmChunkEvents, if_neg hc] at he
        rcases List.mem_cons.mp he with rfl | he2
        · exact Nat.lt_succ_self n
        · exact Nat.lt_trans (Nat.lt_succ_self n) (ih (n + 1) (acc ++ c) e he2)

lemma llmChunkEvents_pairwise (raw : List String) :
    ∀ n acc, ((llmChunkEvents raw n acc).map ChunkData.chunkIndex).Pairwise (· < ·) := by
  induction raw with
  | nil =>
      intro n acc
      simp [llmChunkEvents]
  | cons c rest ih =>
      intro n acc
      by_cases hc : c = ""
      · rw [llmChunkEvents, if_pos hc]
        exact ih n acc
      · rw [llmChunkEvents, if_neg hc, List.map_cons]
        refine List.Pairwise.cons ?_ (ih (n + 1) (acc ++ c))
        intro j hj
        obtain ⟨e, he, rfl⟩ := List.mem_map.mp hj
        exact llmChunkEvents_index_gt rest (n + 1) (acc ++ c) e he

/-- Every `onChunk` payload sequence produced by the streaming pipeline
consists of zero or more non-terminal chunks with strictly increasing
indices followed by exactly one terminal chunk. -/
lemma processStreamingQueryChunks_shape (deps : StreamDeps) (opts : RAGOptions)
    (inst : RAGConfig) :
    ∃ ncs t, processStreamingQueryChunks deps opts inst = ncs ++ [t] ∧
      t.isComplete = true ∧
      (∀ e ∈ ncs, e.isComplete = false) ∧
      (ncs.map ChunkData.chunkIndex).Pairwise (· < ·) := by
  unfold processStreamingQueryChunks
  split
  · exact ⟨[], errorChunkData, rfl, rfl, by simp, by simp⟩
  · split
    · exact ⟨[], errorChunkData, rfl, rfl, by simp, by simp⟩
    · split
      · refine ⟨fallbackWordChunks, fallbackFinalChunk, rfl, rfl, ?_, ?_⟩
        · intro e he
          obtain ⟨p, _, rfl⟩ := List.mem_map.mp he
          rfl
        · have hidx : fallbackWordChunks.map ChunkData.chunkIndex =
              List.range fallbackWords.length := by
            unfold fallbackWordChunks
            rw [List.map_map]
            exact List.enum_map_fst fallbackWords
          rw [hidx]
          exact List.pairwise_lt_range _
      · split
        · exact ⟨llmChunkEvents (deps.llmChunks (streamResolvedContextData deps opts inst)) 0 "",
            errorChunkData, rfl, rfl,
            llmChunkEvents_not_complete _ 0 "", llmChunkEvents_pairwise _ 0 ""⟩
        · exact ⟨llmChunkEvents (deps.llmChunks (streamResolvedContextData deps opts inst)) 0 "",
            llmFinalChunk (deps.llmChunks (streamResolvedContextData deps opts inst)), rfl, rfl,
            llmChunkEvents_not_complete _ 0 "", llmChunkEvents_pairwise _ 0 ""⟩

/-- C1 (amended): for every streaming query over the persistent channel,
the filtered message-event sequence consists of zero or more non-terminal
`message_chunk` events with strictly increasing indices followed by exactly
one terminal event (a `message_complete`, or a final chunk with
`isComplete` true — completion or error); never zero terminals and never
more than one. The terminal chunk's own index may repeat the last content
index, which is what the original claim's blanket strict-increase statement
misses. -/
theorem handleSocketMessage_stream_protocol (deps : StreamDeps) (sid : String) :
    ∃ ncs t,
      (handleSocketMessageEvents deps sid).filter isMessageEvent = ncs ++ [t] ∧
        isTerminalEvent t = true ∧
        (∀ e ∈ ncs, isMessageEvent e = true ∧ isTerminalEvent e = false) ∧
        (ncs.map chunkEventIndex).Pairwise (· < ·) := by
  unfold handleSocketMessageEvents
  by_cases hr : deps.ready = false
  · rw [if_pos hr]
    exact ⟨[], .message_complete sid, by simp [isMessageEvent], rfl, by simp, by simp⟩
  · rw [if_neg hr]
    obtain ⟨ncs, t, heq, ht, hnc, hpw⟩ :=
      processStreamingQueryChunks_shape deps controllerOptions defaultRAGConfig
    refine ⟨ncs.map (fun c => SocketEvent.message_chunk sid c.chunkIndex c.isComplete c.error),
      SocketEvent.message_chunk sid t.chunkIndex t.isComplete t.error, ?_, ?_, ?_, ?_⟩
    · rw [heq]
      have h3 : ∀ l : List ChunkData,
          (l.map (fun c => SocketEvent.message_chunk sid c.chunkIndex c.isComplete c.error)).filter
              isMessageEvent =
            l.map (fun c => SocketEvent.message_chunk sid c.chunkIndex c.isComplete c.error) := by
        intro l
        induction l with
        | nil => rfl
        | cons x xs ihx => simp [List.filter_cons, isMessageEvent, ihx]
      simp only [List.map_append, List.map_cons, List.map_nil, List.filter_cons,
        List.filter_append]
      have h1 : isMessageEvent (SocketEvent.typing true) = false := rfl
      have h2 : isMessageEvent (SocketEvent.typing false) = false := rfl
      rw [h1, h2, h3]
      simp [isMessageEvent]
    · simp [isTerminalEvent, ht]
    · intro e he
      obtain ⟨c, hc, rfl⟩ := List.mem_map.mp he
      exact ⟨rfl, by simp [isTerminalEvent, hnc c hc]⟩
    · rw [List.map_map]
      have hcomp : (chunkEventIndex ∘ fun c : ChunkData =>
          SocketEvent.message_chunk sid c.chunkIndex c.isComplete c.error) =
          ChunkData.chunkIndex := rfl
      rw [hcomp]
      exact hpw

/-- The index of a `message_chunk` event, `none` for other events. -/
def messageChunkIndex? : SocketEvent → Option Nat
  | .message_chunk _ i _ _ => some i
  | _ => none

/-- A streaming run whose LLM stream yields exactly one nonempty fragment:
one document at distance 0, stream `["hi"]`, no failure. -/
def streamDepsOneChunk : StreamDeps :=
  { ready := true
    embed := .ok 768
    search := fun _ => ⟨["doc"], [some 0], [none], ["id1"]⟩
    llmChunks := fun _ => ["hi"]
    llmFails := fun _ => false }

/-- Counterexample to C1 as stated: on a one-fragment LLM stream the emitted
`message_chunk` events carry indices `[1, 1]` — the final completion chunk
repeats the last content index — so the indices over all `message_chunk`
events are not strictly increasing. -/
theorem socket_chunk_indices_repeat :
    ¬ (((handleSocketMessageEvents streamDepsOneChunk "s").filterMap
        messageChunkIndex?).Pairwise (· < ·)) := by
  have hev : (handleSocketMessageEvents streamDepsOneChunk "s").filterMap
      messageChunkIndex? = [1, 1] := by
    norm_num [handleSocketMessageEvents, streamDepsOneChunk, processStreamingQueryChunks,
      streamResolvedContext, streamResolvedContextData, controllerOptions, defaultRAGConfig,
      jsOrNum, filterRelevantContext, candidateAt, prepareContext, prepareContextAux,
      llmChunkEvents, llmFullText, countNonemptyChunks, llmFinalChunk, contextContent,
      strTruthy, messageChunkIndex?, List.filterMap, List.range_succ]
    decide
  rw [hev]
  decide

/-- C8 (implicit): options combined with `||` cannot select the value 0 —
passing 0 for `topK`, `similarityThreshold` or `maxContextLength` behaves
exactly like omitting the option, and on the default instance configuration
the values silently used are 3, 0.1 and 5 respectively. -/
theorem zero_options_use_instance_defaults (deps : PipelineDeps)
    (sdeps : StreamDeps) (inst : RAGConfig) :
    processQuery deps
        { topK := some 0, similarityThreshold := some 0, maxContextLength := some 0 }
        inst =
      processQuery deps {} inst ∧
    processStreamingQueryChunks sdeps
        { topK := some 0, similarityThreshold := some 0, maxContextLength := some 0 }
        inst =
      processStreamingQueryChunks sdeps {} inst ∧
    jsOrNum (some 0) defaultRAGConfig.topK = 3 ∧
    jsOrNum (some 0) defaultRAGConfig.similarityThreshold = 1/10 ∧
    jsOrNum (some 0) defaultRAGConfig.maxContextLength = 5 := by
  have h1 : resolvedContext deps
      { topK := some 0, similarityThreshold := some 0, maxContextLength := some 0 } inst =
      resolvedContext deps {} inst := by
    simp [resolvedContext, resolvedSearch, jsOrNum]
  have h2 : resolvedContextData deps
      { topK := some 0, similarityThreshold := some 0, maxContextLength := some 0 } inst =
      resolvedContextData deps {} inst := by
    simp [resolvedContextData, jsOrNum, h1]
  have hs1 : streamResolvedContext sdeps
      { topK := some 0, similarityThreshold := some 0, maxContextLength := some 0 } inst =
      streamResolvedContext sdeps {} inst := by
    simp [streamResolvedContext, jsOrNum]
  have hs2 : streamResolvedContextData sdeps
      { topK := some 0, similarityThreshold := some 0, maxContextLength := some 0 } inst =
      streamResolvedContextData sdeps {} inst := by
    simp [streamResolvedContextData, jsOrNum, hs1]
  refine ⟨?_, ?_, by simp [jsOrNum, defaultRAGConfig], by simp [jsOrNum, defaultRAGConfig],
    by simp [jsOrNum, defaultRAGConfig]⟩
  · unfold processQuery
    rw [h1, h2]
  · unfold processStreamingQueryChunks
    rw [hs1, hs2]

/-! ## Embedding client input preparation (`embeddings.js`) -/

/-- EmbeddingsService.generateEmbedding, as the string placed in the request
body (`input: [cleanText]`) sent to the embedding provider, `none` when
input validation throws. When `cleanText.length > maxTokens * 4` the source
logs a truncation warning and assigns
`cleanText.substring(0, maxTokens * 4)` to the local variable `text`, but
`text` is never read again: the request body is built from `cleanText`, so
the sent string is the untruncated trimmed input on every path. -/
def generateEmbeddingSentInput (maxTokens : Nat) (text : String) : Option String :=
  let cleanText := jsTrim text
  if cleanText.length = 0 then none
  else some cleanText

/-- C5 (code bug): for an input whose trimmed length exceeds
`maxTokens * 4`, the text sent to the provider is the full trimmed input,
not the truncation the source itself announces: with `maxTokens = 1` the
five-character input is sent whole even though the limit is 4. -/
theorem generateEmbedding_sends_untruncated :
    generateEmbeddingSentInput 1 "abcde" = some "abcde" ∧ 1 * 4 < "abcde".length := by
  decide

/-- A streaming run against a not-ready pipeline. -/
def streamDepsNotReady : StreamDeps :=
  { ready := false
    embed := .ok 0
    search := fun _ => ⟨[], [], [], []⟩
    llmChunks := fun _ => []
    llmFails := fun _ => false }

/-- Witness for C1 (amended): a concrete streaming run emits at least one
message event, its terminal. -/
theorem handleSocketMessage_stream_protocol_witness :
    (handleSocketMessageEvents streamDepsNotReady "s").filter isMessageEvent ≠ [] := by
  obtain ⟨ncs, t, heq, _, _, _⟩ :=
    handleSocketMessage_stream_protocol streamDepsNotReady "s"
  rw [heq]
  simp
